import Mathlib

/- Verification of the Game of Life grid engine in
   src/GameOfLife/game_of_life.cpp.

   Shallow-embedding conventions:
   - `Cell` (a wrapped `bool alive`) is modelled as `Bool`; `Line` (a
     `std::vector<Cell>`) as a function `ℕ → Bool`, and the grid storage
     `CellsGrid` (a `std::vector<Line>`) as `ℕ → ℕ → Bool`.  Indexing
     `lines[i][j]` is function application; `Cell::setAlive` becomes a
     pointwise functional override (`setCell`).  Every loop of the source
     runs over `List.range size` in the same order as the corresponding
     `for` loop, threading the mutated buffer through a fold, so write
     order and read-back of partially written buffers are preserved.
   - `std::rand()` is modelled by an injected stream `draws : ℕ → ℕ`,
     consumed in program order, one draw per `aux::rndBool` call (one per
     cell, row major), matching `std::srand`-seeded global state.
   - In `aux::rndBool`, for an integer percentage `p ≥ 1` the quantity
     `int(std::log10(p) + 1)` is the decimal digit count
     `Nat.log 10 p + 1`, and all intermediate doubles `k / pow10` for
     `k, pow10 ≤ 1001` are distinct, exactly ordered values (division by a
     common positive constant is monotone and double precision leaves no
     rounding collisions at this scale), so the comparison
     `rnd < probability` is exactly the integer test `k % pow10 < p`; the
     embedding works at that integer level.  `probability = 0` makes the
     source cast `-inf` to `int`, which is undefined behaviour, so the
     embedding is only claimed faithful for `p ≥ 1`.
-/

/-- Functional override of one cell of a buffer: the effect of
`buffer[i][j].setAlive(v)` on the buffer viewed as a function. -/
def setCell (f : ℕ → ℕ → Bool) (i j : ℕ) (v : Bool) : ℕ → ℕ → Bool :=
  fun x y => if x = i then (if y = j then v else f x y) else f x y

/-- The modulus computed by `aux::rndBool` (game_of_life.cpp line 29):
`unsigned pow10 = std::pow(10, int(std::log10(probability) + 1)) + 1`,
for an integer percentage `p ≥ 1`. -/
def rndPow10 (p : ℕ) : ℕ := 10 ^ (Nat.log 10 p + 1) + 1

/-- `aux::rndBool` (game_of_life.cpp lines 26-33) at integer percentage
`p ≥ 1`, with the consumed `std::rand()` value passed in as `draw`:
returns whether `(rand() % pow10) / pow10 < p / pow10`, i.e. whether
`draw % pow10 < p`. -/
def rndBool (p : ℕ) (draw : ℕ) : Bool := decide (draw % rndPow10 p < p)

/-- The source's wrap of a decremented index (game_of_life.cpp lines
126-133): `i == 0 ? size - 1 : i - 1`. -/
def wrapDec (n i : ℕ) : ℕ := if i = 0 then n - 1 else i - 1

/-- The source's wrap of an incremented index: `i == size - 1 ? 0 : i + 1`. -/
def wrapInc (n i : ℕ) : ℕ := if i = n - 1 then 0 else i + 1

/-- `gol::Grid::countAliveCells` (game_of_life.cpp lines 123-146),
parameterised by the grid size and the visible buffer it reads; the eight
summands appear in the source's order. -/
def countAliveCells (n : ℕ) (lines : ℕ → ℕ → Bool) (ii jj : ℕ) : ℕ :=
  (lines ii (wrapDec n jj)).toNat
    + (lines ii (wrapInc n jj)).toNat
    + (lines (wrapDec n ii) jj).toNat
    + (lines (wrapDec n ii) (wrapDec n jj)).toNat
    + (lines (wrapDec n ii) (wrapInc n jj)).toNat
    + (lines (wrapInc n ii) jj).toNat
    + (lines (wrapInc n ii) (wrapDec n jj)).toNat
    + (lines (wrapInc n ii) (wrapInc n jj)).toNat

/-- `gol::Grid` (game_of_life.cpp lines 88-190): the fixed size, the
visible buffer `lines` and the scratch buffer `lines_buffer`. -/
structure Grid where
  size : ℕ
  lines : ℕ → ℕ → Bool
  lines_buffer : ℕ → ℕ → Bool

/-- The `Grid(size)` constructor (lines 90-96): both buffers are built
from `Line(size)`, whose `cells_line(size, false)` makes every cell dead. -/
def Grid.construct (n : ℕ) : Grid := ⟨n, fun _ _ => false, fun _ _ => false⟩

/-- The body of the double loop of `gol::Grid::linesToBuffer` (lines
152-169) at indices `(ii, jj)`: the neighbour count is taken on the
visible buffer `lines`, but the alive/dead branch reads the scratch
buffer `b` (`lines_buffer[ii][jj].isAlive()`), and the `switch` writes
the scratch cell; when the scratch cell is dead and the count is not 3,
nothing is written. -/
def cellBody (n : ℕ) (lines b : ℕ → ℕ → Bool) (ii jj : ℕ) : ℕ → ℕ → Bool :=
  let count := countAliveCells n lines ii jj
  if b ii jj then
    if count = 0 ∨ count = 1 then setCell b ii jj false
    else if count = 2 ∨ count = 3 then setCell b ii jj true
    else setCell b ii jj false
  else if count = 3 then setCell b ii jj true
  else b

/-- The per-cell result of `cellBody`, as a function of the alive bit it
branches on and the neighbour count: the value the scratch cell holds
after the body ran at that cell. -/
def cellRule (alive : Bool) (count : ℕ) : Bool :=
  if alive then
    if count = 0 ∨ count = 1 then false
    else if count = 2 ∨ count = 3 then true
    else false
  else if count = 3 then true
  else alive

/-- The row-major double loop of `gol::Grid::linesToBuffer` (lines
152-169), as a fold threading the scratch buffer. -/
def computeLoop (n : ℕ) (lines buf : ℕ → ℕ → Bool) : ℕ → ℕ → Bool :=
  (List.range n).foldl
    (fun b ii => (List.range n).foldl (fun c jj => cellBody n lines c ii jj) b)
    buf

/-- `gol::Grid::linesToBuffer` (lines 149-171): the compute phase; only
the member `lines_buffer` is assigned, by the row-major double loop. -/
def Grid.linesToBuffer (g : Grid) : Grid :=
  { g with lines_buffer := computeLoop g.size g.lines g.lines_buffer }

/-- The row-major copy loop of `gol::Grid::bufferToLines` (lines
177-182), reading the fixed source buffer `src` and overwriting `dst`
cell by cell. -/
def copyLoop (n : ℕ) (src dst : ℕ → ℕ → Bool) : ℕ → ℕ → Bool :=
  (List.range n).foldl
    (fun l ii => (List.range n).foldl (fun m jj => setCell m ii jj (src ii jj)) l)
    dst

/-- `gol::Grid::bufferToLines` (lines 174-183): the commit phase; only
the member `lines` is assigned, cell by cell from `lines_buffer`. -/
def Grid.bufferToLines (g : Grid) : Grid :=
  { g with lines := copyLoop g.size g.lines_buffer g.lines }

/-- `gol::Grid::go` (lines 106-111): compute phase then commit phase. -/
def Grid.go (g : Grid) : Grid := g.linesToBuffer.bufferToLines

/-- `gol::Grid::isAlive` (lines 113-115): reads `lines[xx][yy].isAlive()`. -/
def Grid.isAlive (g : Grid) (xx yy : ℕ) : Bool := g.lines xx yy

/-- `gol::Grid::isAlive` embedded as a state transformer, returning the
result together with the post-call grid: the body only reads
`lines[xx][yy]` and performs no write, so the grid component is the
receiver unchanged. -/
def Grid.isAliveM (g : Grid) (xx yy : ℕ) : Bool × Grid := (g.lines xx yy, g)

/-- One iteration of `gol::Line::initializeRandomly` (lines 69-75) at
cell `(ii, jj)`: consumes the next draw of the stream (the counter is the
second component of the state) and overwrites the cell. -/
def initCell (p : ℕ) (draws : ℕ → ℕ) (st : (ℕ → ℕ → Bool) × ℕ) (ii jj : ℕ) :
    (ℕ → ℕ → Bool) × ℕ :=
  (setCell st.1 ii jj (rndBool p (draws st.2)), st.2 + 1)

/-- The double loop of `gol::Grid::initializeRandomly` (lines 98-104)
together with the inner loops of `gol::Line::initializeRandomly`: rows in
order, cells of each row in order, one draw consumed per cell; the
counter of consumed draws is the second component of the state. -/
def seedLoop (p : ℕ) (draws : ℕ → ℕ) (n : ℕ) (st : (ℕ → ℕ → Bool) × ℕ) :
    (ℕ → ℕ → Bool) × ℕ :=
  (List.range n).foldl
    (fun s ii => (List.range n).foldl (fun t jj => initCell p draws t ii jj) s)
    st

/-- `gol::Grid::initializeRandomly` (lines 98-104): iterates the rows of
the member `lines` in order, each row overwriting its cells in order,
one `rndBool` draw per cell; `lines_buffer` is never touched. -/
def Grid.initializeRandomly (g : Grid) (p : ℕ) (draws : ℕ → ℕ) : Grid :=
  { g with lines := (seedLoop p draws g.size (g.lines, 0)).1 }

/-- The neighbour count as the specification words it (spec sections 4.3
and 9): the eight toroidal neighbours obtained by modular index
arithmetic on the current buffer. -/
def neighborCountMod (n : ℕ) (lines : ℕ → ℕ → Bool) (i j : ℕ) : ℕ :=
  (lines ((i + n - 1) % n) j).toNat
    + (lines ((i + 1) % n) j).toNat
    + (lines i ((j + n - 1) % n)).toNat
    + (lines i ((j + 1) % n)).toNat
    + (lines ((i + n - 1) % n) ((j + n - 1) % n)).toNat
    + (lines ((i + n - 1) % n) ((j + 1) % n)).toNat
    + (lines ((i + 1) % n) ((j + n - 1) % n)).toNat
    + (lines ((i + 1) % n) ((j + 1) % n)).toNat

/-- A 5x5 grid state reachable right after a seeding whose outcome is a
horizontal blinker: the visible buffer holds the three live cells
(2,1), (2,2), (2,3); the scratch buffer still holds its all-dead
post-construction contents. -/
def c1Grid : Grid :=
  ⟨5, fun i j => decide (i = 2 ∧ 1 ≤ j ∧ j ≤ 3), fun _ _ => false⟩

/-- Pointwise effect of a single cell override. -/
lemma setCell_apply (f : ℕ → ℕ → Bool) (i j : ℕ) (v : Bool) (x y : ℕ) :
    setCell f i j v x y = if x = i ∧ y = j then v else f x y := by
  unfold setCell
  by_cases hx : x = i <;> by_cases hy : y = j <;> simp [hx, hy]

/-- Pointwise effect of one loop body of the compute phase: it writes
`cellRule` of the scratch cell it branched on and of the neighbour count
on the visible buffer, at its own coordinate only. -/
lemma cellBody_apply (n : ℕ) (lines b : ℕ → ℕ → Bool) (ii jj x y : ℕ) :
    cellBody n lines b ii jj x y
      = if x = ii ∧ y = jj
          then cellRule (b ii jj) (countAliveCells n lines ii jj)
          else b x y := by
  simp only [cellBody, cellRule]
  cases hb : b ii jj with
  | false =>
    by_cases h3 : countAliveCells n lines ii jj = 3
    · simp [hb, h3, setCell_apply]
    · simp only [hb, h3, if_false, Bool.false_eq_true]
      by_cases hxy : x = ii ∧ y = jj
      · obtain ⟨h4, h5⟩ := hxy
        subst h4; subst h5
        simp [hb]
      · simp [hxy]
  | true =>
    by_cases h01 : countAliveCells n lines ii jj = 0 ∨ countAliveCells n lines ii jj = 1
    · simp [hb, h01, setCell_apply]
    · by_cases h23 : countAliveCells n lines ii jj = 2 ∨ countAliveCells n lines ii jj = 3
      · simp [hb, h01, h23, setCell_apply]
      · simp [hb, h01, h23, setCell_apply]

/-- Generic row lemma: folding a body that reads and writes only its own
coordinate over one row touches exactly the cells `(ii, y)` with
`y < m`, each receiving `F` of its starting value. -/
lemma foldRow_point (F : ℕ → ℕ → Bool → Bool)
    (step : (ℕ → ℕ → Bool) → ℕ → ℕ → ℕ → ℕ → Bool)
    (hstep : ∀ b ii jj x y,
      step b ii jj x y = if x = ii ∧ y = jj then F ii jj (b ii jj) else b x y)
    (ii m : ℕ) (buf : ℕ → ℕ → Bool) (x y : ℕ) :
    ((List.range m).foldl (fun b jj => step b ii jj) buf) x y
      = if x = ii ∧ y < m then F ii y (buf ii y) else buf x y := by
  induction m generalizing x y with
  | zero => simp
  | succ m ih =>
    rw [List.range_succ, List.foldl_append, List.foldl_cons, List.foldl_nil, hstep]
    by_cases h1 : x = ii ∧ y = m
    · obtain ⟨hx1, hy1⟩ := h1
      rw [if_pos ⟨hx1, hy1⟩, ih ii m, if_neg (by omega), hx1, hy1,
        if_pos ⟨rfl, by omega⟩]
    · rw [if_neg h1, ih x y]
      split_ifs with hA hB
      · rfl
      · omega
      · omega
      · rfl

/-- Generic grid lemma: the row-major double loop touches exactly the
cells `(x, y)` with `x < M`, `y < n`, each receiving `F` of its starting
value; in particular every cell is processed once, against the values the
buffer held when the double loop started. -/
lemma foldGrid_point (F : ℕ → ℕ → Bool → Bool)
    (step : (ℕ → ℕ → Bool) → ℕ → ℕ → ℕ → ℕ → Bool)
    (hstep : ∀ b ii jj x y,
      step b ii jj x y = if x = ii ∧ y = jj then F ii jj (b ii jj) else b x y)
    (n M : ℕ) (buf : ℕ → ℕ → Bool) (x y : ℕ) :
    ((List.range M).foldl
        (fun b ii => (List.range n).foldl (fun c jj => step c ii jj) b) buf) x y
      = if x < M ∧ y < n then F x y (buf x y) else buf x y := by
  induction M generalizing x y with
  | zero => simp
  | succ M ih =>
    rw [List.range_succ, List.foldl_append, List.foldl_cons, List.foldl_nil,
      foldRow_point F step hstep M n]
    by_cases h1 : x = M ∧ y < n
    · obtain ⟨hx1, hy1⟩ := h1
      rw [if_pos ⟨hx1, hy1⟩, ih M y, if_neg (by omega), hx1,
        if_pos ⟨by omega, hy1⟩]
    · rw [if_neg h1, ih x y]
      split_ifs with hA hB
      · rfl
      · omega
      · omega
      · rfl

/-- The compute phase, cell by cell: every scratch cell in range becomes
`cellRule` of its own pre-phase scratch value and of the neighbour count
taken on the pre-phase visible buffer; cells out of range are untouched. -/
lemma computeLoop_apply (n : ℕ) (lines buf : ℕ → ℕ → Bool) (x y : ℕ) :
    computeLoop n lines buf x y
      = if x < n ∧ y < n
          then cellRule (buf x y) (countAliveCells n lines x y)
          else buf x y :=
  foldGrid_point (fun a c old => cellRule old (countAliveCells n lines a c))
    (fun c a d => cellBody n lines c a d)
    (fun c a d u v => cellBody_apply n lines c a d u v) n n buf x y

/-- The commit phase, cell by cell: every visible cell in range receives
the corresponding scratch cell; cells out of range are untouched. -/
lemma copyLoop_apply (n : ℕ) (src dst : ℕ → ℕ → Bool) (x y : ℕ) :
    copyLoop n src dst x y = if x < n ∧ y < n then src x y else dst x y :=
  foldGrid_point (fun a c _old => src a c)
    (fun l a d => setCell l a d (src a d))
    (fun l a d u v => setCell_apply l a d (src a d) u v) n n dst x y

/-- First component of one seeding iteration. -/
lemma initCell_fst (p : ℕ) (draws : ℕ → ℕ) (st : (ℕ → ℕ → Bool) × ℕ)
    (ii jj : ℕ) :
    (initCell p draws st ii jj).1 = setCell st.1 ii jj (rndBool p (draws st.2)) :=
  rfl

/-- Second component of one seeding iteration: the counter advances by one. -/
lemma initCell_snd (p : ℕ) (draws : ℕ → ℕ) (st : (ℕ → ℕ → Bool) × ℕ)
    (ii jj : ℕ) :
    (initCell p draws st ii jj).2 = st.2 + 1 :=
  rfl

/-- Counter of one row of the seeding loop: a row of length `m` consumes
exactly `m` draws. -/
lemma seedRow_counter (p : ℕ) (draws : ℕ → ℕ) (ii m : ℕ)
    (st : (ℕ → ℕ → Bool) × ℕ) :
    ((List.range m).foldl (fun t jj => initCell p draws t ii jj) st).2
      = st.2 + m := by
  induction m with
  | zero => simp
  | succ m ih =>
    rw [List.range_succ, List.foldl_append, List.foldl_cons, List.foldl_nil,
      initCell_snd, ih]
    omega

/-- Values of one row of the seeding loop: cell `(ii, y)` with `y < m`
receives `rndBool` of the draw numbered `st.2 + y` when the row starts in
state `st`; all other cells keep their values. -/
lemma seedRow_value (p : ℕ) (draws : ℕ → ℕ) (ii m : ℕ)
    (st : (ℕ → ℕ → Bool) × ℕ) (x y : ℕ) :
    ((List.range m).foldl (fun t jj => initCell p draws t ii jj) st).1 x y
      = if x = ii ∧ y < m then rndBool p (draws (st.2 + y)) else st.1 x y := by
  induction m generalizing x y with
  | zero => simp
  | succ m ih =>
    rw [List.range_succ, List.foldl_append, List.foldl_cons, List.foldl_nil,
      initCell_fst, setCell_apply, seedRow_counter]
    by_cases h1 : x = ii ∧ y = m
    · obtain ⟨hx1, hy1⟩ := h1
      rw [if_pos ⟨hx1, hy1⟩, hx1, hy1, if_pos ⟨rfl, by omega⟩]
    · rw [if_neg h1, ih x y]
      split_ifs with hA hB
      · rfl
      · omega
      · omega
      · rfl

/-- Counter of the full seeding loop: `M` rows of length `n` consume
exactly `M * n` draws. -/
lemma seedGrid_counter (p : ℕ) (draws : ℕ → ℕ) (n M : ℕ)
    (st : (ℕ → ℕ → Bool) × ℕ) :
    ((List.range M).foldl
        (fun s ii => (List.range n).foldl (fun t jj => initCell p draws t ii jj) s)
        st).2
      = st.2 + M * n := by
  induction M with
  | zero => simp
  | succ M ih =>
    rw [List.range_succ, List.foldl_append, List.foldl_cons, List.foldl_nil,
      seedRow_counter, ih]
    ring

/-- Values of the full seeding loop: cell `(x, y)` with `x < M`, `y < n`
receives `rndBool` of the draw numbered `st.2 + x * n + y` — the cells
consume the draw stream in row-major order, one draw each. -/
lemma seedGrid_value (p : ℕ) (draws : ℕ → ℕ) (n M : ℕ)
    (st : (ℕ → ℕ → Bool) × ℕ) (x y : ℕ) :
    ((List.range M).foldl
        (fun s ii => (List.range n).foldl (fun t jj => initCell p draws t ii jj) s)
        st).1 x y
      = if x < M ∧ y < n then rndBool p (draws (st.2 + x * n + y)) else st.1 x y := by
  induction M generalizing x y with
  | zero => simp
  | succ M ih =>
    rw [List.range_succ, List.foldl_append, List.foldl_cons, List.foldl_nil,
      seedRow_value, seedGrid_counter]
    by_cases h1 : x = M ∧ y < n
    · obtain ⟨hx1, hy1⟩ := h1
      rw [if_pos ⟨hx1, hy1⟩, hx1, if_pos ⟨by omega, hy1⟩]
    · rw [if_neg h1, ih x y]
      split_ifs with hA hB
      · rfl
      · omega
      · omega
      · rfl

/-- The compute phase leaves the visible buffer member untouched. -/
lemma linesToBuffer_lines (g : Grid) : g.linesToBuffer.lines = g.lines := rfl

/-- The compute phase leaves the size untouched. -/
lemma linesToBuffer_size (g : Grid) : g.linesToBuffer.size = g.size := rfl

/-- Scratch buffer after the compute phase, cell by cell. -/
lemma linesToBuffer_lines_buffer (g : Grid) (x y : ℕ) :
    g.linesToBuffer.lines_buffer x y
      = if x < g.size ∧ y < g.size
          then cellRule (g.lines_buffer x y) (countAliveCells g.size g.lines x y)
          else g.lines_buffer x y :=
  computeLoop_apply g.size g.lines g.lines_buffer x y

/-- The commit phase leaves the scratch buffer member untouched. -/
lemma bufferToLines_lines_buffer (g : Grid) :
    g.bufferToLines.lines_buffer = g.lines_buffer := rfl

/-- The commit phase leaves the size untouched. -/
lemma bufferToLines_size (g : Grid) : g.bufferToLines.size = g.size := rfl

/-- Visible buffer after the commit phase, cell by cell. -/
lemma bufferToLines_lines (g : Grid) (x y : ℕ) :
    g.bufferToLines.lines x y
      = if x < g.size ∧ y < g.size then g.lines_buffer x y else g.lines x y :=
  copyLoop_apply g.size g.lines_buffer g.lines x y

/-- `go` leaves the size untouched. -/
lemma go_size (g : Grid) : g.go.size = g.size := rfl

/-- Visible buffer after one `go`, cell by cell: in range it is
`cellRule` of the pre-call scratch cell and of the neighbour count on the
pre-call visible buffer. -/
lemma go_lines (g : Grid) (x y : ℕ) :
    g.go.lines x y
      = if x < g.size ∧ y < g.size
          then cellRule (g.lines_buffer x y) (countAliveCells g.size g.lines x y)
          else g.lines x y := by
  show g.linesToBuffer.bufferToLines.lines x y = _
  rw [bufferToLines_lines, linesToBuffer_lines_buffer]
  simp only [linesToBuffer_size, linesToBuffer_lines]
  split_ifs with h
  · rfl
  · rfl

/-- Scratch buffer after one `go`, cell by cell: identical to the
post-call visible buffer on the processed range. -/
lemma go_lines_buffer (g : Grid) (x y : ℕ) :
    g.go.lines_buffer x y
      = if x < g.size ∧ y < g.size
          then cellRule (g.lines_buffer x y) (countAliveCells g.size g.lines x y)
          else g.lines_buffer x y := by
  show g.linesToBuffer.bufferToLines.lines_buffer x y = _
  rw [bufferToLines_lines_buffer, linesToBuffer_lines_buffer]

/-- Seeding leaves the scratch buffer member untouched. -/
lemma initializeRandomly_lines_buffer (g : Grid) (p : ℕ) (draws : ℕ → ℕ) :
    (g.initializeRandomly p draws).lines_buffer = g.lines_buffer := rfl

/-- Seeding leaves the size untouched. -/
lemma initializeRandomly_size (g : Grid) (p : ℕ) (draws : ℕ → ℕ) :
    (g.initializeRandomly p draws).size = g.size := rfl

/-- Visible buffer after seeding, cell by cell: cell `(x, y)` in range is
set from the draw numbered `x * size + y` — its own draw, in row-major
order. -/
lemma initializeRandomly_lines (g : Grid) (p : ℕ) (draws : ℕ → ℕ) (x y : ℕ) :
    (g.initializeRandomly p draws).lines x y
      = if x < g.size ∧ y < g.size
          then rndBool p (draws (x * g.size + y))
          else g.lines x y := by
  show (seedLoop p draws g.size (g.lines, 0)).1 x y = _
  unfold seedLoop
  rw [seedGrid_value]
  split_ifs with h
  · show rndBool p (draws (0 + x * g.size + y)) = _
    rw [Nat.zero_add]
  · rfl

/-- The source's conditional decrement wrap agrees with the spec's
modular arithmetic on in-range indices. -/
lemma wrapDec_eq_mod (n i : ℕ) (h : i < n) : wrapDec n i = (i + n - 1) % n := by
  unfold wrapDec
  by_cases h0 : i = 0
  · subst h0
    simp [Nat.mod_eq_of_lt (show n - 1 < n by omega)]
  · rw [if_neg h0]
    have h1 : i + n - 1 = (i - 1) + n := by omega
    rw [h1, Nat.add_mod_right, Nat.mod_eq_of_lt (by omega)]

/-- The source's conditional increment wrap agrees with the spec's
modular arithmetic on in-range indices. -/
lemma wrapInc_eq_mod (n i : ℕ) (h : i < n) : wrapInc n i = (i + 1) % n := by
  unfold wrapInc
  by_cases h0 : i = n - 1
  · subst h0
    rw [if_pos rfl]
    have h1 : n - 1 + 1 = n := by omega
    rw [h1, Nat.mod_self]
  · rw [if_neg h0, Nat.mod_eq_of_lt (by omega)]

/-- The decrement wrap stays in range. -/
lemma wrapDec_lt (n i : ℕ) (h : i < n) : wrapDec n i < n := by
  unfold wrapDec
  split <;> omega

/-- The increment wrap stays in range. -/
lemma wrapInc_lt (n i : ℕ) (h : i < n) : wrapInc n i < n := by
  unfold wrapInc
  split <;> omega

/-- With a neighbour count of zero, a cell is dead after the rule,
whatever it held. -/
lemma cellRule_zero (b : Bool) : cellRule b 0 = false := by
  cases b <;> simp [cellRule]

/-- The `rndBool` modulus is strictly larger than the percentage. -/
lemma lt_rndPow10 (p : ℕ) : p < rndPow10 p := by
  have h := Nat.lt_pow_succ_log_self (show 1 < 10 by norm_num) p
  unfold rndPow10
  rw [Nat.succ_eq_add_one] at h
  omega

/-- The `rndBool` modulus is `1` modulo `10`, hence never `100`. -/
lemma rndPow10_ne_100 (p : ℕ) : rndPow10 p ≠ 100 := by
  have h : rndPow10 p % 10 = 1 := by
    unfold rndPow10
    rw [pow_succ, Nat.mul_comm, Nat.mul_add_mod]
  intro hc
  rw [hc] at h
  norm_num at h

/-- Exactly `p` of the `rndPow10 p` equally likely residues of a uniform
draw make `rndBool p` succeed: the success probability is
`p / rndPow10 p`. -/
lemma rndBool_card (p : ℕ) :
    ((Finset.range (rndPow10 p)).filter (fun k => rndBool p k = true)).card = p := by
  have hlt : p < rndPow10 p := lt_rndPow10 p
  have hset : (Finset.range (rndPow10 p)).filter (fun k => rndBool p k = true)
      = Finset.range p := by
    ext k
    simp only [Finset.mem_filter, Finset.mem_range, rndBool, decide_eq_true_eq]
    constructor
    · rintro ⟨hk, hkp⟩
      rwa [Nat.mod_eq_of_lt hk] at hkp
    · intro hkp
      have hk : k < rndPow10 p := lt_trans hkp hlt
      exact ⟨hk, by rwa [Nat.mod_eq_of_lt hk]⟩
  rw [hset, Finset.card_range]

/-- The success probability of `rndBool p` differs from `p / 100`
whenever `p ≥ 1`. -/
lemma rndBool_prob_ne (p : ℕ) (hp1 : 1 ≤ p) :
    (p : ℚ) / (rndPow10 p : ℚ) ≠ (p : ℚ) / 100 := by
  intro h
  have hp0 : (p : ℚ) ≠ 0 := Nat.cast_ne_zero.mpr (by omega)
  have hm0 : (rndPow10 p : ℚ) ≠ 0 := Nat.cast_ne_zero.mpr (by unfold rndPow10; omega)
  rw [div_eq_div_iff hm0 (by norm_num)] at h
  have h2 : (100 : ℚ) = (rndPow10 p : ℚ) := mul_left_cancel₀ hp0 h
  have h3 : (rndPow10 p : ℕ) = 100 := by exact_mod_cast h2.symm
  exact rndPow10_ne_100 p h3

/-- The modulus at percentage `100` is `1001`. -/
lemma rndPow10_100 : rndPow10 100 = 1001 := by
  have hl : Nat.log 10 100 = 2 :=
    Nat.log_eq_of_pow_le_of_lt_pow (by norm_num) (by norm_num)
  unfold rndPow10
  rw [hl]
  norm_num

/-- `rndBool` at percentage `100` fails on the draw `100`: a cell seeded
with probability `100` can come out dead. -/
lemma rndBool_100_100 : rndBool 100 100 = false := by
  unfold rndBool
  rw [rndPow10_100]
  norm_num

/-- Claim C3: for every cell `(i, j)` of an N-by-N grid, the neighbour
count used by `advance()` equals the number of live cells among the 8
toroidal neighbours (i-1 wrapping to N-1 at i=0, i+1 wrapping to 0 at
i=N-1, likewise for j, here phrased by modular arithmetic); the count
lies in [0, 8]; and a live cell at (N-1, N-1) is counted as a diagonal
neighbour of (0, 0). -/
theorem countAliveCells_spec (n : ℕ) (lines : ℕ → ℕ → Bool) (i j : ℕ)
    (hi : i < n) (hj : j < n) :
    countAliveCells n lines i j = neighborCountMod n lines i j
      ∧ countAliveCells n lines i j ≤ 8
      ∧ (lines (n - 1) (n - 1) = true → 1 ≤ countAliveCells n lines 0 0) := by
  refine ⟨?_, ?_, ?_⟩
  · unfold countAliveCells neighborCountMod
    rw [wrapDec_eq_mod n i hi, wrapInc_eq_mod n i hi,
      wrapDec_eq_mod n j hj, wrapInc_eq_mod n j hj]
    ring
  · have h1 : ∀ b : Bool, b.toNat ≤ 1 := fun b => by cases b <;> simp
    unfold countAliveCells
    have c1 := h1 (lines i (wrapDec n j))
    have c2 := h1 (lines i (wrapInc n j))
    have c3 := h1 (lines (wrapDec n i) j)
    have c4 := h1 (lines (wrapDec n i) (wrapDec n j))
    have c5 := h1 (lines (wrapDec n i) (wrapInc n j))
    have c6 := h1 (lines (wrapInc n i) j)
    have c7 := h1 (lines (wrapInc n i) (wrapDec n j))
    have c8 := h1 (lines (wrapInc n i) (wrapInc n j))
    omega
  · intro h
    have hd : wrapDec n 0 = n - 1 := by unfold wrapDec; simp
    unfold countAliveCells
    rw [hd, h]
    have ht : (true : Bool).toNat = 1 := rfl
    omega

/-- Witness for claim C3 at a concrete instance. -/
theorem countAliveCells_spec_witness :
    countAliveCells 2 (fun i j => decide (i = 1 ∧ j = 1)) 0 0
        = neighborCountMod 2 (fun i j => decide (i = 1 ∧ j = 1)) 0 0
      ∧ countAliveCells 2 (fun i j => decide (i = 1 ∧ j = 1)) 0 0 ≤ 8
      ∧ ((fun i j => decide (i = 1 ∧ j = 1)) (2 - 1) (2 - 1) = true
          → 1 ≤ countAliveCells 2 (fun i j => decide (i = 1 ∧ j = 1)) 0 0) :=
  countAliveCells_spec 2 (fun i j => decide (i = 1 ∧ j = 1)) 0 0
    (by decide) (by decide)

/-- Claim C5: during the compute phase the visible buffer is not
modified, and every cell of the scratch buffer is computed from the same
pre-update snapshot: the neighbour counts are all taken on the visible
buffer as it was when the phase started. -/
theorem linesToBuffer_frame (g : Grid) (x y : ℕ)
    (hx : x < g.size) (hy : y < g.size) :
    g.linesToBuffer.lines = g.lines
      ∧ g.linesToBuffer.lines_buffer x y
          = cellRule (g.lines_buffer x y) (countAliveCells g.size g.lines x y) := by
  refine ⟨rfl, ?_⟩
  rw [linesToBuffer_lines_buffer, if_pos ⟨hx, hy⟩]

/-- Witness for claim C5 at a concrete instance. -/
theorem linesToBuffer_frame_witness :
    (Grid.linesToBuffer ⟨2, fun i _ => decide (i = 0), fun _ _ => false⟩).lines
        = (⟨2, fun i _ => decide (i = 0), fun _ _ => false⟩ : Grid).lines
      ∧ (Grid.linesToBuffer
            ⟨2, fun i _ => decide (i = 0), fun _ _ => false⟩).lines_buffer 1 0
          = cellRule false (countAliveCells 2 (fun i _ => decide (i = 0)) 1 0) :=
  linesToBuffer_frame ⟨2, fun i _ => decide (i = 0), fun _ _ => false⟩ 1 0
    (by decide) (by decide)

/-- Claim C6: seeding modifies only the visible buffer; the scratch
buffer member is returned unchanged, and on a freshly constructed grid it
still holds its all-dead post-construction contents after seeding. -/
theorem initializeRandomly_frame (g : Grid) (p : ℕ) (draws : ℕ → ℕ)
    (n x y : ℕ) :
    (g.initializeRandomly p draws).lines_buffer = g.lines_buffer
      ∧ ((Grid.construct n).initializeRandomly p draws).lines_buffer x y = false :=
  ⟨rfl, rfl⟩

/-- Claim C7: when `advance()` returns, the scratch buffer and the
visible buffer agree on every in-range cell. -/
theorem go_buffers_agree (g : Grid) (x y : ℕ)
    (hx : x < g.size) (hy : y < g.size) :
    g.go.lines x y = g.go.lines_buffer x y := by
  rw [go_lines, go_lines_buffer, if_pos ⟨hx, hy⟩, if_pos ⟨hx, hy⟩]

/-- Witness for claim C7 at a concrete instance. -/
theorem go_buffers_agree_witness :
    (Grid.go ⟨1, fun _ _ => true, fun _ _ => true⟩).lines 0 0
      = (Grid.go ⟨1, fun _ _ => true, fun _ _ => true⟩).lines_buffer 0 0 :=
  go_buffers_agree ⟨1, fun _ _ => true, fun _ _ => true⟩ 0 0
    (by decide) (by decide)

/-- Claim C8: `advance()` applied to any grid whose visible buffer is
all dead (whatever the scratch buffer holds) leaves every in-range
visible cell dead — no spontaneous generation. -/
theorem go_all_dead (g : Grid)
    (hdead : ∀ a b, a < g.size → b < g.size → g.lines a b = false)
    (i j : ℕ) (hi : i < g.size) (hj : j < g.size) :
    g.go.lines i j = false := by
  have hz : ∀ a b, a < g.size → b < g.size → (g.lines a b).toNat = 0 := by
    intro a b ha hb
    rw [hdead a b ha hb]
    rfl
  have hcount : countAliveCells g.size g.lines i j = 0 := by
    have d1 := wrapDec_lt g.size i hi
    have d2 := wrapInc_lt g.size i hi
    have d3 := wrapDec_lt g.size j hj
    have d4 := wrapInc_lt g.size j hj
    unfold countAliveCells
    rw [hz i _ hi d3, hz i _ hi d4, hz _ j d1 hj, hz _ _ d1 d3, hz _ _ d1 d4,
      hz _ j d2 hj, hz _ _ d2 d3, hz _ _ d2 d4]
  rw [go_lines, if_pos ⟨hi, hj⟩, hcount, cellRule_zero]

/-- Witness for claim C8 at a concrete instance: all-dead visible
buffer, a live cell left in the scratch buffer. -/
theorem go_all_dead_witness :
    (Grid.go ⟨2, fun _ _ => false, fun i j => decide (i = 0 ∧ j = 0)⟩).lines 0 1
      = false :=
  go_all_dead ⟨2, fun _ _ => false, fun i j => decide (i = 0 ∧ j = 0)⟩
    (fun _ _ _ _ => rfl) 0 1 (by decide) (by decide)

/-- Claim C9: `isAlive` is a pure read: it returns the grid unchanged
(both buffers, all cells), its value is the visible cell, and an
immediately repeated call returns the same value. -/
theorem isAlive_pure (g : Grid) (x y : ℕ) (hx : x < g.size) (hy : y < g.size) :
    (g.isAliveM x y).2 = g
      ∧ (g.isAliveM x y).1 = g.isAlive x y
      ∧ ((g.isAliveM x y).2.isAliveM x y).1 = (g.isAliveM x y).1 :=
  ⟨rfl, rfl, rfl⟩

/-- Witness for claim C9 at a concrete instance. -/
theorem isAlive_pure_witness :
    ((Grid.isAliveM ⟨3, fun i j => decide (i + j = 2), fun _ _ => false⟩ 2 0).2
        = ⟨3, fun i j => decide (i + j = 2), fun _ _ => false⟩
      ∧ (Grid.isAliveM ⟨3, fun i j => decide (i + j = 2), fun _ _ => false⟩ 2 0).1
          = (⟨3, fun i j => decide (i + j = 2), fun _ _ => false⟩ : Grid).isAlive 2 0
      ∧ ((Grid.isAliveM ⟨3, fun i j => decide (i + j = 2), fun _ _ => false⟩ 2
            0).2.isAliveM 2 0).1
          = (Grid.isAliveM ⟨3, fun i j => decide (i + j = 2), fun _ _ => false⟩ 2
              0).1) :=
  isAlive_pure ⟨3, fun i j => decide (i + j = 2), fun _ _ => false⟩ 2 0
    (by decide) (by decide)

/-- Claim C10: a freshly constructed grid is all dead: `isAlive` is
false at every in-range coordinate before any seeding or advancing. -/
theorem construct_all_dead (n x y : ℕ) (hx : x < n) (hy : y < n) :
    (Grid.construct n).isAlive x y = false := rfl

/-- Witness for claim C10 at a concrete instance. -/
theorem construct_all_dead_witness : (Grid.construct 3).isAlive 1 2 = false :=
  construct_all_dead 3 1 2 (by decide) (by decide)

/-- Claim C1 (code bug): in the state reached right after a seeding that
produced a horizontal blinker (scratch buffer still all dead), the
visible cell (2,2) is alive and has exactly 2 live neighbours, so the
classic rule on the pre-update visible buffer keeps it alive; yet one
`advance()` leaves it dead, because the update branches on the scratch
cell `lines_buffer[ii][jj]` instead of the visible cell. -/
theorem go_first_generation_bug :
    c1Grid.lines 2 2 = true
      ∧ countAliveCells c1Grid.size c1Grid.lines 2 2 = 2
      ∧ c1Grid.go.lines 2 2 = false := by
  refine ⟨by decide, by decide, ?_⟩
  rw [go_lines]
  decide

/-- Claim C4 (code bug): from the state reached right after a seeding
that produced a horizontal blinker on a 5x5 grid, one `advance()` does
not produce the vertical 3-cell orientation (the centre (2,2) dies while
(1,2) is born), and a second `advance()` does not return to the
horizontal orientation ((1,2) is dead again — the pattern dies out), so
the period-2 toggle fails. -/
theorem blinker_not_period_two :
    c1Grid.lines 2 2 = true
      ∧ c1Grid.go.lines 1 2 = true
      ∧ c1Grid.go.lines 2 2 = false
      ∧ c1Grid.go.go.lines 1 2 = false := by
  refine ⟨by decide, ?_, ?_, ?_⟩
  · rw [go_lines]
    decide
  · rw [go_lines]
    decide
  · rw [go_lines c1Grid.go 1 2]
    simp only [go_size, go_lines, go_lines_buffer, countAliveCells, wrapDec, wrapInc]
    decide

/-- Claim C2 (counterexample): `seed(100)` does not produce an all-alive
grid: on a 1x1 grid, when the pending `std::rand()` value is 100, the
single cell comes out dead, since `rndBool(100)` compares
`rand() % 1001 < 100`. -/
theorem seed100_not_all_alive :
    ((Grid.construct 1).initializeRandomly 100 (fun _ => 100)).lines 0 0
      = false := by
  rw [initializeRandomly_lines, if_pos ⟨by decide, by decide⟩]
  exact rndBool_100_100

/-- Claim C2 (amended): for an integer percentage `1 ≤ p ≤ 100`, seeding
sets each in-range cell `(x, y)` from its own draw (the `x*N + y`-th, in
row-major order) by `rndBool`, which succeeds on exactly `p` of the
`rndPow10 p` equally likely residues — a success probability of
`p / rndPow10 p`, which differs from the claimed `p / 100`. -/
theorem initializeRandomly_success_probability (g : Grid) (p : ℕ)
    (draws : ℕ → ℕ) (x y : ℕ) (hp1 : 1 ≤ p) (hp2 : p ≤ 100)
    (hx : x < g.size) (hy : y < g.size) :
    (g.initializeRandomly p draws).lines x y = rndBool p (draws (x * g.size + y))
      ∧ ((Finset.range (rndPow10 p)).filter (fun k => rndBool p k = true)).card = p
      ∧ (p : ℚ) / (rndPow10 p : ℚ) ≠ (p : ℚ) / 100 := by
  refine ⟨?_, rndBool_card p, rndBool_prob_ne p hp1⟩
  rw [initializeRandomly_lines, if_pos ⟨hx, hy⟩]

/-- Witness for the amended claim C2 at a concrete instance. -/
theorem initializeRandomly_success_probability_witness :
    ((Grid.construct 2).initializeRandomly 30 (fun k => k)).lines 0 1
        = rndBool 30 ((fun k => k) (0 * (Grid.construct 2).size + 1))
      ∧ ((Finset.range (rndPow10 30)).filter
            (fun k => rndBool 30 k = true)).card = 30
      ∧ ((30 : ℕ) : ℚ) / ((rndPow10 30 : ℕ) : ℚ) ≠ ((30 : ℕ) : ℚ) / 100 :=
  initializeRandomly_success_probability (Grid.construct 2) 30 (fun k => k) 0 1
    (by decide) (by decide) (by decide) (by decide)
